import Mathlib

/-!
Verification development for the InvoiceAPI repository
(`shared_code/excel.py`, `shared_code/models.py`, `function_app.py`).

The Python sources are shallowly embedded: dictionaries holding the fields a
function actually reads become structures of `Option`-typed fields
(`none` = key absent), Python floats become `ℚ` (the claims under study concern
field selection and list manipulation, not floating-point rounding), Python
exceptions become `Except`, and the external extraction engine (GPT) is an
oracle parameter.  Line numbers in doc comments refer to the Python sources.
-/

namespace InvoiceAPI

/-! ## Python-semantics helpers -/

/-- Characters stripped by Python `str.strip()` (whitespace). -/
def pyIsSpace (c : Char) : Bool :=
  c = ' ' || c = '\t' || c = '\n' || c = '\r' || c = '\x0b' || c = '\x0c'

/-- Python `str.strip()`. -/
def pyStrip (s : String) : String :=
  ⟨(s.data.dropWhile pyIsSpace).reverse.dropWhile pyIsSpace |>.reverse⟩

/-- Normalise one bound of a Python slice `l[a:b]` for a sequence of length
`n`: negative indices count from the end, then the bound is clamped to
`[0, n]`. -/
def pySliceBound (n : Nat) (i : Int) : Nat :=
  if i < 0 then (max (i + n) 0).toNat else min i.toNat n

/-- Python list/str slice `l[a:b]` (step 1), with full negative-index
semantics. -/
def pySliceList {α : Type} (l : List α) (a b : Int) : List α :=
  let lo := pySliceBound l.length a
  let hi := pySliceBound l.length b
  (l.drop lo).take (hi - lo)

/-- Python string slice `s[a:b]`. -/
def pySliceStr (s : String) (a b : Int) : String :=
  ⟨pySliceList s.data a b⟩

/-- Drop `pat` from the head of `cs`; `none` if `cs` does not start with it. -/
def dropPre : List Char → List Char → Option (List Char)
  | [], cs => some cs
  | _ :: _, [] => none
  | p :: ps, c :: cs => if p = c then dropPre ps cs else none

/-- Python `s.startswith(pat)`. -/
def strStarts (s pat : String) : Bool :=
  (dropPre pat.data s.data).isSome

/-- Python `s.endswith(pat)`. -/
def strEnds (s pat : String) : Bool :=
  (dropPre pat.data.reverse s.data.reverse).isSome

/-- ASCII lowercasing of one character (Python `str.lower` restricted to the
ASCII inputs that occur here). -/
def charLower (c : Char) : Char :=
  if 'A' ≤ c ∧ c ≤ 'Z' then Char.ofNat (c.toNat + 32) else c

/-- Python `s.lower()` (ASCII). -/
def strLower (s : String) : String :=
  ⟨s.data.map charLower⟩

/-- Python `s.split(sep)` for non-empty `sep`: leftmost non-overlapping
occurrences, empty pieces kept.  Fuel-based; every step consumes a character,
so fuel = length + 1 always suffices. -/
def splitOnGo (sep : List Char) : Nat → List Char → List Char → List (List Char)
  | 0, acc, cs => [acc.reverse ++ cs]
  | fuel + 1, acc, cs =>
    match dropPre sep cs with
    | some rest => acc.reverse :: splitOnGo sep fuel [] rest
    | none =>
      match cs with
      | [] => [acc.reverse]
      | c :: cs' => splitOnGo sep fuel (c :: acc) cs'

/-- Python `s.split(sep)`. -/
def pySplitStr (s sep : String) : List String :=
  (splitOnGo sep.data (s.data.length + 1) [] s.data).map (⟨·⟩)

/-! ## Invoice Merge Engine (`excel.py` lines 593-621, 744-767)

An invoice fragment is a JSON object returned by the extraction engine.
`merge_or_add_invoice` reads three of its keys — `'Invoice Number'`,
`'List of Items'` and `'Total'` — and otherwise only tests the dict for
truthiness, so a fragment is embedded as those three optional fields plus a
flag recording whether the dict carries any further keys (which only affects
Python truthiness).  The merge engine never inspects an item, so items are
opaque tokens (`ℕ`). -/

structure Frag where
  invoiceNumber : Option String
  items : Option (List Nat)
  total : Option ℚ
  hasOtherKeys : Bool
  deriving DecidableEq, Repr

/-- Python truthiness of the fragment dict: a dict is truthy iff it has at
least one key. -/
def fragTruthy (f : Frag) : Bool :=
  f.invoiceNumber.isSome || f.items.isSome || f.total.isSome || f.hasOtherKeys

/-- Python truthiness of the value `new_invoice.get('Total', 0)`:
the default `0` is falsy, a stored number is truthy iff non-zero. -/
def pyTruthyTotal (t : Option ℚ) : Bool :=
  match t with
  | none => false
  | some q => decide (q ≠ 0)

/-- The items of a fragment, `fragment.get('List of Items', [])`. -/
def fragItems (f : Frag) : List Nat :=
  f.items.getD []

/-- `merge_or_add_invoice(new_invoice, current_invoice, all_invoices)`
(`excel.py` lines 603-621).

* `if not new_invoice: return current_invoice` — a falsy fragment is a no-op;
* matching invoice numbers (`Option` equality models Python `==` on the two
  `.get('Invoice Number')` results, with `None == None` true):
  `current_invoice['List of Items'].extend(new_invoice.get('List of Items', []))`
  raises `KeyError` when the open invoice has no `'List of Items'` key, which
  is modelled as `.error`; the error payload carries `all_invoices`, whose
  in-place mutations survive a Python exception;
  the total is overwritten when `new_invoice.get('Total', 0)` is truthy;
* otherwise the (truthy) open invoice is appended to `all_invoices` and the
  new fragment becomes the open invoice. -/
def merge_or_add_invoice (new_invoice : Frag) (current : Option Frag)
    (all_invoices : List Frag) : Except (List Frag) (Option Frag × List Frag) :=
  if fragTruthy new_invoice = false then .ok (current, all_invoices)
  else
    match current with
    | none => .ok (some new_invoice, all_invoices)
    | some cf =>
      if fragTruthy cf ∧ new_invoice.invoiceNumber = cf.invoiceNumber then
        match cf.items with
        | none => .error all_invoices
        | some ci =>
          .ok (some { cf with
                items := some (ci ++ fragItems new_invoice),
                total := if pyTruthyTotal new_invoice.total then
                           new_invoice.total
                         else cf.total },
               all_invoices)
      else
        .ok (some new_invoice,
             if fragTruthy cf then all_invoices ++ [cf] else all_invoices)

/-- A page-level result of `send_to_gpt`: the parsed JSON is either a list of
invoice fragments or a single fragment (`process_page_result` distinguishes
the two with `isinstance(page_result, list)`). -/
inductive PageResult where
  | list (fs : List Frag)
  | single (f : Frag)
  deriving DecidableEq, Repr

/-- Python truthiness of a page result (`if page_result:` / `if result:`):
an empty list is falsy, a dict is truthy iff non-empty. -/
def resultTruthy (r : PageResult) : Bool :=
  match r with
  | .list fs => !fs.isEmpty
  | .single f => fragTruthy f

/-- The fragments contained in a page result. -/
def resultFrags (r : PageResult) : List Frag :=
  match r with
  | .list fs => fs
  | .single f => [f]

/-- Fold `merge_or_add_invoice` over a list of fragments, propagating a
`KeyError` (Python: the exception aborts the loop; `all_invoices` keeps the
appends already performed, carried in the error payload). -/
def mergeFold (fs : List Frag) (current : Option Frag) (all_invoices : List Frag) :
    Except (List Frag) (Option Frag × List Frag) :=
  match fs with
  | [] => .ok (current, all_invoices)
  | f :: rest =>
    match merge_or_add_invoice f current all_invoices with
    | .error e => .error e
    | .ok (c, a) => mergeFold rest c a

/-- `process_page_result(page_result, current_invoice, all_invoices)`
(`excel.py` lines 593-601). -/
def process_page_result (page_result : PageResult) (current : Option Frag)
    (all_invoices : List Frag) : Except (List Frag) (Option Frag × List Frag) :=
  match page_result with
  | .list fs => mergeFold fs current all_invoices
  | .single f => merge_or_add_invoice f current all_invoices

/-- One iteration of the page loop of `process_invoice_with_gpt`
(`excel.py` lines 745-762), with `send_to_gpt`'s result for the page given as
an `Option PageResult` (`none` = `send_to_gpt` returned `None`).
The `try/except/continue` around the page body is modelled by catching the
merge `KeyError`: the appends to `all_invoices` performed before the exception
persist (they are in-place list mutations), while the loop-local rebinding of
`current_invoice` is lost, so the open invoice reverts to the value the caller
held before the page.  (In-place mutations of that open invoice itself before
the error are not modelled; every run examined below either performs none or
raises before any.) -/
def pageStep (st : Option Frag × List Frag) (r : Option PageResult) :
    Option Frag × List Frag :=
  match r with
  | none => st
  | some pr =>
    if resultTruthy pr then
      match process_page_result pr st.1 st.2 with
      | .ok st' => st'
      | .error allE => (st.1, allE)
    else st

/-- End-of-document flush (`excel.py` lines 764-765):
`if current_invoice: all_invoices.append(current_invoice)`. -/
def flushInvoices (st : Option Frag × List Frag) : List Frag :=
  match st.1 with
  | some cf => if fragTruthy cf then st.2 ++ [cf] else st.2
  | none => st.2

/-- The whole page loop of `process_invoice_with_gpt` (lines 741-767):
fold the per-page extraction results in page order from the empty merge state,
then flush. -/
def process_invoice_pages (results : List (Option PageResult)) : List Frag :=
  flushInvoices (results.foldl pageStep (none, []))

/-- All items held in a merge state: items of the completed invoices followed
by the items of the open invoice. -/
def stateItems (st : Option Frag × List Frag) : List Nat :=
  (st.2.map fragItems).flatten ++ (match st.1 with
    | some cf => fragItems cf
    | none => [])

/-! ## Data model (`models.py`)

`InvoiceItem.from_dict` / `Invoice.from_dict` read a fixed set of keys from a
raw dict; a raw dict is embedded as a structure of `Option` fields, `none`
meaning the key is absent.  Values are assumed to already have the type the
template requests (`str()` / `float()` / `int()` coercions are then the
identity). -/

/-- The keys read by `InvoiceItem.from_dict` (`models.py` lines 30-53). -/
structure RawItem where
  itemNumber : Option String := none
  itemName : Option String := none
  productCategory : Option String := none
  quantityInACase : Option ℚ := none
  measurementOfEachItem : Option ℚ := none
  measuredIn : Option String := none
  quantityShipped : Option ℚ := none
  extendedPrice : Option ℚ := none
  totalUnitsOrdered : Option ℚ := none
  casePrice : Option ℚ := none
  catchWeight : Option String := none
  pricedBy : Option String := none
  splitable : Option String := none
  splitPrice : Option String := none
  costOfAUnit : Option ℚ := none
  costOfEachItem : Option ℚ := none
  currency : Option String := none
  pageNumber : Option Int := none
  itemIndex : Option Int := none
  inventoryItem : Option Bool := none
  deriving DecidableEq, Repr

/-- The `InvoiceItem` dataclass (`models.py` lines 7-28). -/
structure InvoiceItem where
  Item_Number : String
  Item_Name : String
  Product_Category : String
  Quantity_In_a_Case : ℚ
  Measurement_Of_Each_Item : ℚ
  Measured_In : String
  Quantity_Shipped : ℚ
  Extended_Price : ℚ
  Total_Units_Ordered : ℚ
  Case_Price : ℚ
  Catch_Weight : String
  Priced_By : String
  Splitable : String
  Split_Price : String
  Cost_of_a_Unit : ℚ
  Cost_of_Each_Item : ℚ
  Currency : String
  Inventoryitem : Bool
  page_number : Int
  item_index : Int
  deriving DecidableEq, Repr

/-- `InvoiceItem.from_dict` (`models.py` lines 30-53): each `data.get(key,
default)` becomes `Option.getD`. -/
def InvoiceItem.from_dict (data : RawItem) : InvoiceItem where
  Item_Number := data.itemNumber.getD ""
  Item_Name := data.itemName.getD ""
  Product_Category := data.productCategory.getD ""
  Quantity_In_a_Case := data.quantityInACase.getD 0
  Measurement_Of_Each_Item := data.measurementOfEachItem.getD 0
  Measured_In := data.measuredIn.getD ""
  Quantity_Shipped := data.quantityShipped.getD 0
  Extended_Price := data.extendedPrice.getD 0
  Total_Units_Ordered := data.totalUnitsOrdered.getD 0
  Case_Price := data.casePrice.getD 0
  Catch_Weight := data.catchWeight.getD ""
  Priced_By := data.pricedBy.getD ""
  Splitable := data.splitable.getD ""
  Split_Price := data.splitPrice.getD ""
  Cost_of_a_Unit := data.costOfAUnit.getD 0
  Cost_of_Each_Item := data.costOfEachItem.getD 0
  Currency := data.currency.getD ""
  page_number := data.pageNumber.getD 1
  item_index := data.itemIndex.getD 0
  Inventoryitem := data.inventoryItem.getD false

/-- The keys read by `Invoice.from_dict` (`models.py` lines 122-171). -/
structure RawInvoice where
  supplierName : Option String := none
  soldToAddress : Option String := none
  orderDate : Option String := none
  shipDate : Option String := none
  invoiceNumber : Option String := none
  shippingAddress : Option String := none
  total : Option ℚ := none
  status : Option String := none
  listOfItems : Option (List RawItem) := none
  page : Option Int := none
  deriving DecidableEq, Repr

/-- The `Invoice` dataclass (`models.py` lines 80-96). -/
structure Invoice where
  Supplier_Name : String
  Sold_to_Address : String
  Order_Date : String
  Ship_Date : String
  Invoice_Number : String
  Shipping_Address : String
  Total : ℚ
  PO_NUMBER : Int
  location : String
  status : String
  Items : List InvoiceItem
  page : Int
  total_pages : Int
  items_per_page : Int
  total_items : Int
  deriving DecidableEq, Repr

/-- Python `max(iterable, default=d)`: `d` when the iterable is empty, the
maximum of the elements otherwise. -/
def pyMaxD (d : Int) (l : List Int) : Int :=
  match l with
  | [] => d
  | x :: xs => xs.foldl max x

/-- Word characters for the `re` word boundary `\b` (ASCII). -/
def isWordChar (c : Char) : Bool :=
  c.isAlpha || c.isDigit || c = '_'

/-- `c` is an ASCII uppercase letter (`[A-Z]`). -/
def isUpperAZ (c : Char) : Bool :=
  'A' ≤ c && c ≤ 'Z'

/-- Whether `re.search(r'\b([A-Z]{2})\b', ·)` matches at the head of `cs`,
where `prev` is the character before `cs` (if any): two ASCII uppercase
letters with a word boundary on both sides. -/
def stateCodeAt (prev : Option Char) (cs : List Char) : Option String :=
  match cs with
  | c₁ :: c₂ :: rest =>
    if isUpperAZ c₁ && isUpperAZ c₂
        && (match prev with | none => true | some p => !isWordChar p)
        && (match rest with | [] => true | r :: _ => !isWordChar r) then
      some ⟨[c₁, c₂]⟩
    else none
  | _ => none

/-- The (leftmost) match of `re.search(r'\b([A-Z]{2})\b', ·)` in a character
list, scanning positions left to right. -/
def findStateCodeAux (prev : Option Char) (cs : List Char) : Option String :=
  match cs with
  | [] => none
  | c :: rest =>
    match stateCodeAt prev cs with
    | some st => some st
    | none => findStateCodeAux (some c) rest

/-- First state-code match in a string. -/
def findStateCode (s : String) : Option String :=
  findStateCodeAux none s.data

/-- `re.sub(r'\d+', '', city)`: remove all digits. -/
def stripDigits (s : String) : String :=
  ⟨s.data.filter (fun c => !c.isDigit)⟩

/-- The comma-split, stripped components of an address
(`models.py` line 106). -/
def addressParts (address : String) : List String :=
  (pySplitStr address ",").map pyStrip

/-- The backward scan of `extract_location_from_address`
(`models.py` lines 109-116): examine component `i`, then `i - 1`, …;
a match only returns when `i > 0` (so index `0` is never examined by this
auxiliary, matching the `state_match and i > 0` guard). -/
def locScanAux (parts : List String) : Nat → Option String
  | 0 => none
  | i + 1 =>
    match findStateCode ((parts.get? (i + 1)).getD "") with
    | some state =>
      some (pyStrip (stripDigits (pyStrip ((parts.get? i).getD ""))) ++ ", " ++ state)
    | none => locScanAux parts i

/-- `Invoice.extract_location_from_address` (`models.py` lines 98-120). -/
def Invoice.extract_location_from_address (address : String) : String :=
  if address = "" then "N/A"
  else
    let parts := addressParts address
    match locScanAux parts (parts.length - 1) with
    | some loc => loc
    | none => "N/A"

/-- `Invoice.from_dict` (`models.py` lines 122-171).  The call
`random.randint(10000, 99999)` that produces `PO_NUMBER` is nondeterministic
and is passed in as the argument `po`. -/
def Invoice.from_dict (po : Int) (data : RawInvoice) : Invoice :=
  let shipping_addr := data.shippingAddress.getD ""
  let sold_to_addr := data.soldToAddress.getD ""
  let location₀ := Invoice.extract_location_from_address shipping_addr
  let location := if location₀ = "N/A" then
      Invoice.extract_location_from_address sold_to_addr
    else location₀
  let items_data := data.listOfItems.getD []
  let items_per_page : Nat := 10
  let total_items := items_data.length
  let total_pages : Int :=
    max (((total_items + items_per_page - 1) / items_per_page : Nat) : Int)
      (pyMaxD 1 (items_data.map (fun item => item.pageNumber.getD 1)))
  let current_page₀ := data.page.getD 1
  let current_page := max 1 (min current_page₀ total_pages)
  let items := items_data.enum.map (fun p =>
    InvoiceItem.from_dict
      { p.2 with pageNumber := some ((p.1 / items_per_page : Nat) + 1),
                 itemIndex := some ((p.1 % items_per_page : Nat)) })
  { Supplier_Name := data.supplierName.getD ""
    Sold_to_Address := data.soldToAddress.getD ""
    Order_Date := data.orderDate.getD ""
    Ship_Date := data.shipDate.getD ""
    Invoice_Number := data.invoiceNumber.getD ""
    Shipping_Address := data.shippingAddress.getD ""
    Total := data.total.getD 0
    PO_NUMBER := po
    location := location
    status := data.status.getD ""
    Items := items
    page := current_page
    total_pages := total_pages
    items_per_page := (items_per_page : Int)
    total_items := (total_items : Int) }

/-- `Invoice.get_items_for_page` (`models.py` lines 204-208):
`self.Items[start_idx : min(start_idx + self.items_per_page, len(self.Items))]`
with Python slice semantics. -/
def Invoice.get_items_for_page (inv : Invoice) (page_number : Int) : List InvoiceItem :=
  let start_idx := (page_number - 1) * inv.items_per_page
  let end_idx := min (start_idx + inv.items_per_page) (inv.Items.length : Int)
  pySliceList inv.Items start_idx end_idx

/-! ## JSON (`json.loads`)

The Python standard library's strict JSON parser, modelled from its
documented grammar: values are objects, arrays, strings, numbers, `true`,
`false`, `null` (plus the `json` module's `NaN`/`Infinity`/`-Infinity`
extensions); whitespace is space, tab, newline, carriage return; strings
reject unescaped control characters and accept the standard escapes
(`\uXXXX` only for non-surrogate code points — a strict subset of CPython;
no input below uses `\u`).  Number lexemes are kept verbatim; object fields
are kept in parse order. -/

/-- The `{` character (written by code point throughout). -/
def lbrace : Char := Char.ofNat 123

/-- The `}` character. -/
def rbrace : Char := Char.ofNat 125

inductive JValue where
  | jnull
  | jbool (b : Bool)
  | jnum (lit : String)
  | jstr (s : String)
  | jarr (elems : List JValue)
  | jobj (fields : List (String × JValue))

/-- JSON whitespace. -/
def jsonWs (c : Char) : Bool :=
  c = ' ' || c = '\t' || c = '\n' || c = '\r'

def skipWs (cs : List Char) : List Char :=
  cs.dropWhile jsonWs

def hexVal (c : Char) : Option Nat :=
  if '0' ≤ c ∧ c ≤ '9' then some (c.toNat - '0'.toNat)
  else if 'a' ≤ c ∧ c ≤ 'f' then some (c.toNat - 'a'.toNat + 10)
  else if 'A' ≤ c ∧ c ≤ 'F' then some (c.toNat - 'A'.toNat + 10)
  else none

def escChar (c : Char) : Option Char :=
  if c = '"' then some '"'
  else if c = '\\' then some '\\'
  else if c = '/' then some '/'
  else if c = 'b' then some '\x08'
  else if c = 'f' then some '\x0c'
  else if c = 'n' then some '\n'
  else if c = 'r' then some '\r'
  else if c = 't' then some '\t'
  else none

/-- Parse a JSON string body (the opening quote already consumed). -/
def parseJStr : List Char → Option (String × List Char)
  | [] => none
  | c :: rest =>
    if c = '"' then some ("", rest)
    else if c = '\\' then
      match rest with
      | [] => none
      | e :: rest₂ =>
        if e = 'u' then
          match rest₂ with
          | h₁ :: h₂ :: h₃ :: h₄ :: rest₃ =>
            match hexVal h₁, hexVal h₂, hexVal h₃, hexVal h₄ with
            | some a, some b, some c', some d =>
              let n := ((a * 16 + b) * 16 + c') * 16 + d
              if 0xD800 ≤ n ∧ n ≤ 0xDFFF then none
              else (parseJStr rest₃).map (fun p => (⟨Char.ofNat n :: p.1.data⟩, p.2))
            | _, _, _, _ => none
          | _ => none
        else
          match escChar e with
          | some ec => (parseJStr rest₂).map (fun p => (⟨ec :: p.1.data⟩, p.2))
          | none => none
    else if c.toNat < 0x20 then none
    else (parseJStr rest).map (fun p => (⟨c :: p.1.data⟩, p.2))

/-- Parse a JSON number lexeme, `-?(0|[1-9]\d*)(\.\d+)?([eE][+-]?\d+)?`. -/
def parseNumLit (cs : List Char) : Option (JValue × List Char) :=
  let (sign, cs₁) := match cs with
    | '-' :: r => (['-'], r)
    | _ => (([] : List Char), cs)
  match cs₁ with
  | d :: _ =>
    if d.isDigit then
      let (ip, cs₂) :=
        if d = '0' then (['0'], cs₁.drop 1)
        else (cs₁.takeWhile Char.isDigit, cs₁.dropWhile Char.isDigit)
      let (fp, cs₃) := match cs₂ with
        | '.' :: r =>
          if (r.takeWhile Char.isDigit).isEmpty then (([] : List Char), cs₂)
          else ('.' :: r.takeWhile Char.isDigit, r.dropWhile Char.isDigit)
        | _ => ([], cs₂)
      let (ep, cs₄) := match cs₃ with
        | e :: r =>
          if e = 'e' ∨ e = 'E' then
            let (es, r') := match r with
              | s :: r' => if s = '+' ∨ s = '-' then ([s], r') else ([], r)
              | [] => ([], r)
            if (r'.takeWhile Char.isDigit).isEmpty then (([] : List Char), cs₃)
            else (e :: es ++ r'.takeWhile Char.isDigit, r'.dropWhile Char.isDigit)
          else ([], cs₃)
        | [] => ([], cs₃)
      some (.jnum ⟨sign ++ ip ++ fp ++ ep⟩, cs₄)
    else none
  | [] => none

def tryKeyword (kw : String) (v : JValue) (cs : List Char) :
    Option (JValue × List Char) :=
  (dropPre kw.data cs).map (fun r => (v, r))

mutual

/-- Parse one JSON value at the head of `cs` (no leading whitespace). -/
def parseVal : Nat → List Char → Option (JValue × List Char)
  | 0, _ => none
  | fuel + 1, cs =>
    match cs with
    | [] => none
    | c :: rest =>
      if c = lbrace then
        (parseObjFields fuel (skipWs rest)).map (fun p => (JValue.jobj p.1, p.2))
      else if c = '[' then
        (parseArrElems fuel (skipWs rest)).map (fun p => (JValue.jarr p.1, p.2))
      else if c = '"' then
        (parseJStr rest).map (fun p => (JValue.jstr p.1, p.2))
      else
        match tryKeyword "true" (.jbool true) cs with
        | some r => some r
        | none =>
        match tryKeyword "false" (.jbool false) cs with
        | some r => some r
        | none =>
        match tryKeyword "null" .jnull cs with
        | some r => some r
        | none =>
        match tryKeyword "NaN" (.jnum "NaN") cs with
        | some r => some r
        | none =>
        match tryKeyword "Infinity" (.jnum "Infinity") cs with
        | some r => some r
        | none =>
        match tryKeyword "-Infinity" (.jnum "-Infinity") cs with
        | some r => some r
        | none => parseNumLit cs

/-- One `"key": value` member. -/
def parseMember : Nat → List Char → Option ((String × JValue) × List Char)
  | 0, _ => none
  | fuel + 1, cs =>
    match cs with
    | c :: rest =>
      if c = '"' then
        match parseJStr rest with
        | some (k, cs₁) =>
          match skipWs cs₁ with
          | ':' :: cs₂ =>
            (parseVal fuel (skipWs cs₂)).map (fun p => ((k, p.1), p.2))
          | _ => none
        | none => none
      else none
    | [] => none

/-- Object body after `{` and whitespace. -/
def parseObjFields : Nat → List Char → Option (List (String × JValue) × List Char)
  | 0, _ => none
  | fuel + 1, cs =>
    match cs with
    | c :: rest =>
      if c = rbrace then some ([], rest)
      else
        match parseMember fuel cs with
        | some (kv, cs₁) =>
          (parseObjMore fuel (skipWs cs₁)).map (fun p => (kv :: p.1, p.2))
        | none => none
    | [] => none

/-- Object continuation: `,` member … or `}`. -/
def parseObjMore : Nat → List Char → Option (List (String × JValue) × List Char)
  | 0, _ => none
  | fuel + 1, cs =>
    match cs with
    | c :: rest =>
      if c = rbrace then some ([], rest)
      else if c = ',' then
        match parseMember fuel (skipWs rest) with
        | some (kv, cs₁) =>
          (parseObjMore fuel (skipWs cs₁)).map (fun p => (kv :: p.1, p.2))
        | none => none
      else none
    | [] => none

/-- Array body after `[` and whitespace. -/
def parseArrElems : Nat → List Char → Option (List JValue × List Char)
  | 0, _ => none
  | fuel + 1, cs =>
    match cs with
    | c :: _ =>
      if c = ']' then some ([], cs.drop 1)
      else
        match parseVal fuel cs with
        | some (v, cs₁) =>
          (parseArrMore fuel (skipWs cs₁)).map (fun p => (v :: p.1, p.2))
        | none => none
    | [] => none

/-- Array continuation: `,` value … or `]`. -/
def parseArrMore : Nat → List Char → Option (List JValue × List Char)
  | 0, _ => none
  | fuel + 1, cs =>
    match cs with
    | c :: rest =>
      if c = ']' then some ([], rest)
      else if c = ',' then
        match parseVal fuel (skipWs rest) with
        | some (v, cs₁) =>
          (parseArrMore fuel (skipWs cs₁)).map (fun p => (v :: p.1, p.2))
        | none => none
      else none
    | [] => none

end

/-- `json.loads`: parse a complete JSON document (fuel = input length
suffices, as every recursion step consumes input). -/
def pyLoads (s : String) : Option JValue :=
  let cs := skipWs s.data
  match parseVal (cs.length + 1) cs with
  | some (v, rest) => if skipWs rest = [] then some v else none
  | none => none

/-! ## Extraction Adapter recovery (`excel.py` lines 40-87 and 438-460) -/

/-- Python `str.isprintable()`, modelled for ASCII: true except for control
characters and DEL (code points above ASCII are treated as printable; no
input below contains any). -/
def pyIsPrintable (c : Char) : Bool :=
  0x20 ≤ c.toNat && c.toNat ≠ 0x7F

/-- `remove_non_printable` (`excel.py` lines 40-42): keep a character iff
`char.isprintable() or char.isspace()`. -/
def remove_non_printable (s : String) : String :=
  ⟨s.data.filter (fun c => pyIsPrintable c || pyIsSpace c)⟩

/-- Modelled from the spec: the code-fence wrapper token.  The packaged
source lost this three-character token (the corresponding string literals
appear as empty strings at `excel.py` lines 49 and 442-445, while line 50
still slices `text[3:-3]`, i.e. removes a three-character marker from each
end); the spec's recovery layer 1 says "strip non-printable characters and
code-fence wrapper tokens (including a leading language tag)", so the token
is restored as the Markdown code fence. -/
def codeFence : String := "```"

/-- The fence of a tagged block, `codeFence ++ "json"`. -/
def codeFenceJson : String := codeFence ++ "json"

/-- Python `sub in s` (for non-empty `sub`). -/
def strContains (s sub : String) : Bool :=
  (pySplitStr s sub).length != 1

/-- Python `s.split(sep)[1].split(sep2)[0]`: the text after the first
occurrence of `sep` (up to its next occurrence), truncated at the first
following occurrence of `sep2`. -/
def betweenTokens (s sep sep2 : String) : String :=
  ((pySplitStr ((pySplitStr s sep).getD 1 "") sep2)).headD ""

/-- Python `s.find(c)`: first index or `-1`. -/
def pyFind (s : String) (c : Char) : Int :=
  match s.data.findIdx? (· = c) with
  | some i => (i : Int)
  | none => -1

/-- Python `s.rfind(c)`: last index or `-1`. -/
def pyRFind (s : String) (c : Char) : Int :=
  match s.data.reverse.findIdx? (· = c) with
  | some i => (s.data.length - 1 - i : Int)
  | none => -1

/-- Recovery layer 1 of `send_to_gpt` (`excel.py` lines 439-445): strip
non-printable characters, then cut out the code-fenced block (tagged fence
first). -/
def fenceStripped (reply : String) : String :=
  let content₀ := remove_non_printable reply
  if strContains content₀ codeFenceJson then
    pyStrip (betweenTokens content₀ codeFenceJson codeFence)
  else if strContains content₀ codeFence then
    pyStrip (betweenTokens content₀ codeFence codeFence)
  else content₀

/-- The fallback substring of `send_to_gpt` (`excel.py` line 455):
`content[content.find('{') : content.rfind('}') + 1]`. -/
def braceSpan (s : String) : String :=
  pySliceStr s (pyFind s lbrace) (pyRFind s rbrace + 1)

/-- The JSON-recovery portion of `send_to_gpt` (`excel.py` lines 438-460),
applied to the extraction engine's reply text: strip non-printables and the
code fence; `json.loads`; on failure parse the first-`{`-to-last-`}`
substring; on failure return `None` (the surrounding handlers log and return
`None`, never raising to the caller). -/
def send_to_gpt_recover (reply : String) : Option JValue :=
  let content := fenceStripped reply
  match pyLoads content with
  | some v => some v
  | none => pyLoads (braceSpan content)

/-- Walk characters counting brace depth (`excel.py` lines 63-70), starting
just after an opening brace at depth 1; returns the consumed characters
(including the closing brace) and the remainder, or `none` when the text
ends before the count returns to zero. -/
def braceWalk (depth : Nat) (acc : List Char) : List Char → Option (List Char × List Char)
  | [] => none
  | c :: rest =>
    if c = rbrace ∧ depth = 1 then some (acc ++ [c], rest)
    else
      let depth' := if c = lbrace then depth + 1 else if c = rbrace then depth - 1 else depth
      braceWalk depth' (acc ++ [c]) rest

/-- The balanced-brace scan of `Removingunwanted_from_Json`
(`excel.py` lines 57-87): find each balanced `{...}` substring in turn,
parse it, keep the successes, stop at end of text or an unbalanced brace.
Each round consumes at least the opening brace, so fuel = length suffices. -/
def braceScanGo : Nat → List Char → List JValue
  | 0, _ => []
  | fuel + 1, cs =>
    match cs.dropWhile (· ≠ lbrace) with
    | [] => []
    | _ :: afterBrace =>
      match braceWalk 1 [lbrace] afterBrace with
      | none => []
      | some (cand, after) =>
        match pyLoads ⟨cand⟩ with
        | some v => v :: braceScanGo fuel after
        | none => braceScanGo fuel after

def braceScan (s : String) : List JValue :=
  braceScanGo (s.length + 1) s.data

/-- Result of `Removingunwanted_from_Json`: a direct parse returns whatever
JSON value was read; the brace scan returns a Python list of the recovered
objects. -/
inductive RecoverResult where
  | parsed (v : JValue)
  | scanned (vs : List JValue)

/-- `Removingunwanted_from_Json` (`excel.py` lines 44-87): strip, remove a
surrounding code fence and a leading `json` tag, `json.loads`; on failure
collect every balanced `{...}` substring that parses, returning `None` when
none does.  (This helper is defined in `excel.py` but never called by the
pipeline.) -/
def Removingunwanted_from_Json (Jsonfile : String) : Option RecoverResult :=
  let text₀ := pyStrip Jsonfile
  let text₁ :=
    if strStarts text₀ codeFence && strEnds text₀ codeFence then
      pyStrip (pySliceStr text₀ 3 (-3))
    else text₀
  let text :=
    if strStarts (strLower text₁) "json" then
      pyStrip (pySliceStr text₁ 4 (text₁.length : Int))
    else text₁
  match pyLoads text with
  | some v => some (.parsed v)
  | none =>
    let objs := braceScan text
    if objs.isEmpty then none else some (.scanned objs)

/-! ## Oversized-Page Splitter (`excel.py` lines 568-591, 744-758)

`handle_large_page` splits the formatted page text with
`re.split(r'(----- Table \d+ Start -----)', page_text)` — the capture keeps
the markers — and feeds accumulated chunks to `send_to_gpt`, starting a new
chunk at every part that `startswith('----- Table')`.  The extraction call is
abstracted as an `oracle : String → Option PageResult`. -/

/-- The literal part of the marker regex before `\d+`. -/
def tableMarkerHead : List Char := "----- Table ".data

/-- The literal part of the marker regex after `\d+`. -/
def tableMarkerTail : List Char := " Start -----".data

/-- The literal tested by `part.startswith('----- Table')`. -/
def tableMarkerTest : List Char := "----- Table".data

/-- `cs.startswith(pat)`. -/
def startsWithChars (pat cs : List Char) : Bool :=
  (dropPre pat cs).isSome

/-- Match the marker regex `----- Table \d+ Start -----` at the head of `cs`
(greedy `\d+` = maximal digit run); returns the matched characters and the
remainder. -/
def matchMarker (cs : List Char) : Option (List Char × List Char) :=
  match dropPre tableMarkerHead cs with
  | none => none
  | some r₁ =>
    let ds := r₁.takeWhile Char.isDigit
    if ds.isEmpty then none
    else
      match dropPre tableMarkerTail (r₁.dropWhile Char.isDigit) with
      | none => none
      | some r₂ => some (tableMarkerHead ++ ds ++ tableMarkerTail, r₂)

/-- The scanner behind `re.split` with a capturing group: returns the text
before the first marker match and the list of (marker, following-text)
pairs, scanning for leftmost non-overlapping matches.  Fuel-based (each step
consumes at least one character, so fuel = length + 1 is always enough; the
fuel-exhausted branch never fires then). -/
def reSplitGo : Nat → List Char → List Char × List (List Char × List Char)
  | 0, cs => (cs, [])
  | fuel + 1, cs =>
    match matchMarker cs with
    | some (m, rest) =>
      let next := reSplitGo fuel rest
      ([], (m, next.1) :: next.2)
    | none =>
      match cs with
      | [] => ([], [])
      | c :: cs' =>
        let next := reSplitGo fuel cs'
        (c :: next.1, next.2)

/-- `re.split(r'(----- Table \d+ Start -----)', page_text)`:
`[before, marker₁, between₁, marker₂, between₂, …]`. -/
def reSplitParts (s : String) : List (List Char) :=
  let pp := reSplitGo (s.data.length + 1) s.data
  pp.1 :: (pp.2.map (fun pr => [pr.1, pr.2])).flatten

/-- Python `'\n'.join`. -/
def joinNL : List (List Char) → List Char
  | [] => []
  | [p] => p
  | p :: ps => p ++ '\n' :: joinNL ps

/-- One extraction-and-fold step on a chunk of text
(`result = send_to_gpt(...); if result: current_invoice =
process_page_result(result, current_invoice, all_invoices)`). -/
def gptStep (oracle : String → Option PageResult) (st : Option Frag × List Frag)
    (chunk : List Char) : Except (List Frag) (Option Frag × List Frag) :=
  match oracle ⟨chunk⟩ with
  | none => .ok st
  | some r => if resultTruthy r then process_page_result r st.1 st.2 else .ok st

/-- The accumulator loop of `handle_large_page` (`excel.py` lines 572-589):
start a new chunk before each part that starts with `----- Table`, process
the accumulated chunk, and process the final chunk when the accumulator is
non-empty. -/
def hlpLoop (oracle : String → Option PageResult) (parts : List (List Char))
    (current_part : List (List Char)) (st : Option Frag × List Frag) :
    Except (List Frag) (Option Frag × List Frag) :=
  match parts with
  | [] =>
    if current_part.isEmpty then .ok st
    else gptStep oracle st (joinNL current_part)
  | p :: rest =>
    if startsWithChars tableMarkerTest p then
      if current_part.isEmpty then hlpLoop oracle rest [p] st
      else
        match gptStep oracle st (joinNL current_part) with
        | .error e => .error e
        | .ok st' => hlpLoop oracle rest [p] st'
    else hlpLoop oracle rest (current_part ++ [p]) st

/-- `handle_large_page(page_text, current_invoice, all_invoices)`
(`excel.py` lines 568-591). -/
def handle_large_page (oracle : String → Option PageResult) (page_text : String)
    (st : Option Frag × List Frag) : Except (List Frag) (Option Frag × List Frag) :=
  hlpLoop oracle (reSplitParts page_text) [] st

/-- The chunk texts `handle_large_page` sends, computed directly (used to
state what the loop does). -/
def chunksLoop (parts : List (List Char)) (current : List (List Char)) :
    List (List Char) :=
  match parts with
  | [] => if current.isEmpty then [] else [joinNL current]
  | p :: rest =>
    if startsWithChars tableMarkerTest p then
      if current.isEmpty then chunksLoop rest [p]
      else joinNL current :: chunksLoop rest [p]
    else chunksLoop rest (current ++ [p])

/-- The ordered segment texts of an oversized page. -/
def pageChunks (s : String) : List (List Char) :=
  chunksLoop (reSplitParts s) []

/-- Fold the extraction-and-fold step over a list of chunks in order. -/
def foldChunks (oracle : String → Option PageResult) (st : Option Frag × List Frag) :
    List (List Char) → Except (List Frag) (Option Frag × List Frag)
  | [] => .ok st
  | c :: cs =>
    match gptStep oracle st c with
    | .error e => .error e
    | .ok st' => foldChunks oracle st' cs

/-- The per-page dispatch of `process_invoice_with_gpt`
(`excel.py` lines 750-756): oversized pages (strictly more than 16000
characters) go through `handle_large_page`, others through a single
extraction-and-fold step. -/
def processPage (oracle : String → Option PageResult) (page_text : String)
    (st : Option Frag × List Frag) : Except (List Frag) (Option Frag × List Frag) :=
  if 16000 < page_text.length then handle_large_page oracle page_text st
  else gptStep oracle st page_text.data

/-! ## Pack-Size Parser, Unit Normalizer, Field Calculator

The repository implements these as natural-language instructions inside the
`send_to_gpt` prompt (`excel.py` lines 220-339): the parsing is performed by
the external extraction engine, not by Python code.  They are therefore
modelled from the spec (§4.5), with the Unit Mapping Table transcribed from
the prompt's `Measurement Units` block (`excel.py` lines 273-310). -/

/-- Modelled from the spec: the Unit Mapping Table (surface form →
canonical unit), transcribed verbatim from the prompt at `excel.py` lines
276-310; there is no executable table in the repository. -/
def unitTable : List (String × String) :=
  [("LB", "pounds"), ("LBS", "pounds"), ("#", "pounds"), ("POUND", "pounds"),
   ("OZ", "ounces"), ("OUNCE", "ounces"),
   ("KG", "kilos"), ("KILO", "kilos"),
   ("G", "grams"), ("GM", "grams"), ("GRAM", "grams"),
   ("EA", "each"), ("PC", "each"), ("CT", "each"), ("COUNT", "each"),
   ("PIECE", "each"),
   ("CS", "case"), ("CASE", "case"), ("BX", "case"), ("BOX", "case"),
   ("DOZ", "dozen"), ("DZ", "dozen"),
   ("PK", "pack"), ("PACK", "pack"), ("PKG", "pack"),
   ("BDL", "bundle"), ("BUNDLE", "bundle"),
   ("GAL", "gallons"), ("GALLON", "gallons"),
   ("QT", "quarts"), ("QUART", "quarts"),
   ("PT", "pints"), ("PINT", "pints"),
   ("FL OZ", "fluid_ounces"), ("FLOZ", "fluid_ounces"),
   ("L", "liters"), ("LT", "liters"), ("LTR", "liters"),
   ("ML", "milliliters"),
   ("CN", "cans"), ("CAN", "cans"), ("#10 CAN", "cans"),
   ("JR", "jars"), ("JAR", "jars"),
   ("BTL", "bottles"), ("BOTTLE", "bottles"),
   ("CTN", "containers"), ("CONT", "containers"),
   ("TB", "tubs"), ("TUB", "tubs"),
   ("BG", "bags"), ("BAG", "bags"),
   ("BN", "bunch"), ("BCH", "bunch"), ("BUNCH", "bunch"),
   ("HD", "head"), ("HEAD", "head"),
   ("BSK", "basket"), ("BASKET", "basket"),
   ("CRT", "crate"), ("CRATE", "crate"),
   ("CRTN", "carton"), ("CARTON", "carton")]

/-- Canonical form of a unit token; unrecognised tokens pass through
unchanged. -/
def canonicalUnit (tok : String) : String :=
  match unitTable.lookup tok with
  | some u => u
  | none => tok

/-- Digits of a numeral, as a natural number. -/
def natOfDigits (ds : List Char) : Nat :=
  ds.foldl (fun n c => n * 10 + (c.toNat - '0'.toNat)) 0

/-- A token is numeric iff it is `digits` or `digits.digits` (non-empty
integer part). -/
def parseQNum (s : String) : Option ℚ :=
  let cs := s.data
  let ip := cs.takeWhile Char.isDigit
  if ip.isEmpty then none
  else
    match cs.dropWhile Char.isDigit with
    | [] => some (natOfDigits ip : ℚ)
    | '.' :: fp =>
      if fp.all Char.isDigit then
        some ((natOfDigits ip : ℚ) + (natOfDigits fp : ℚ) / (10 ^ fp.length : ℚ))
      else none
    | _ => none

/-- Accumulator loop for whitespace splitting: emit the accumulated word at
each whitespace run, drop empty pieces. -/
def wordsGo (acc : List Char) : List Char → List String
  | [] => if acc.isEmpty then [] else [⟨acc.reverse⟩]
  | c :: cs =>
    if pyIsSpace c then
      if acc.isEmpty then wordsGo [] cs else ⟨acc.reverse⟩ :: wordsGo [] cs
    else wordsGo (c :: acc) cs

/-- Python `str.split()` without separator: whitespace-delimited words. -/
def pyWords (s : String) : List String :=
  wordsGo [] s.data

/-- First numeric token of a token list, with the tokens after it. -/
def splitFirstNum : List String → Option (ℚ × List String)
  | [] => none
  | t :: ts =>
    match parseQNum t with
    | some v => some (v, ts)
    | none => splitFirstNum ts

/-- Modelled from the spec (§4.5): quantity-in-case is the first number of
the pack-size token list, measurement-of-each-item the second, the raw unit
the token following the second number (canonicalised); fewer than two
numbers ⇒ both quantities default to 1. -/
def packSizeFromTokens (ts : List String) : ℚ × ℚ × String :=
  match splitFirstNum ts with
  | none => (1, 1, "")
  | some (v₁, rest₁) =>
    match splitFirstNum rest₁ with
    | none => (1, 1, "")
    | some (v₂, rest₂) => (v₁, v₂, canonicalUnit (rest₂.headD ""))

/-- Modelled from the spec: parse a pack-size string. -/
def parsePackSize (s : String) : ℚ × ℚ × String :=
  packSizeFromTokens (pyWords s)

/-- Modelled from the spec (§4.5, Field Calculator):
total-units-ordered = quantity-in-case × measurement-of-each-item ×
quantity-shipped. -/
def totalUnitsOrderedOf (qic meas qship : ℚ) : ℚ :=
  qic * meas * qship

/-- The `Default Values` block of the extraction prompt (`excel.py` lines
413-417): defaults the extraction engine is instructed to apply.  They are
never enforced by `InvoiceItem.from_dict`. -/
def promptDefaultQuantity : ℚ := 1

def promptDefaultCurrency : String := "USD"

def promptDefaultSplitPrice : String := "N/A"

def promptDefaultCategory : String := "OTHER"

/-! ## Helper lemmas -/

theorem foldl_max_init_le (xs : List Int) (x : Int) : x ≤ xs.foldl max x := by
  induction xs generalizing x with
  | nil => exact le_refl x
  | cons y ys ih => exact le_trans (le_max_left x y) (ih (max x y))

theorem foldl_max_le_of_mem {a : Int} {xs : List Int} (x : Int) (h : a ∈ xs) :
    a ≤ xs.foldl max x := by
  induction xs generalizing x with
  | nil => cases h
  | cons y ys ih =>
    rcases List.mem_cons.mp h with rfl | h'
    · exact le_trans (le_max_right x a) (foldl_max_init_le ys (max x a))
    · exact ih (max x y) h'

theorem foldl_max_le {c x : Int} {xs : List Int} (hx : x ≤ c)
    (h : ∀ a ∈ xs, a ≤ c) : xs.foldl max x ≤ c := by
  induction xs generalizing x with
  | nil => exact hx
  | cons y ys ih =>
    exact ih (max_le hx (h y (List.mem_cons_self _ _))) fun a ha => h a (List.mem_cons_of_mem y ha)

theorem pyMaxD_le_of_mem {a : Int} {l : List Int} (d : Int) (h : a ∈ l) :
    a ≤ pyMaxD d l := by
  cases l with
  | nil => cases h
  | cons x xs =>
    rcases List.mem_cons.mp h with rfl | h'
    · exact foldl_max_init_le xs a
    · exact foldl_max_le_of_mem x h'

theorem pyMaxD_le {c : Int} {l : List Int} (hne : l ≠ [])
    (h : ∀ a ∈ l, a ≤ c) : pyMaxD 1 l ≤ c := by
  cases l with
  | nil => exact absurd rfl hne
  | cons x xs =>
    exact foldl_max_le (h x (List.mem_cons_self _ _)) fun a ha => h a (List.mem_cons_of_mem x ha)

/-- Projection of `Invoice.from_dict`: the stored `total_pages`. -/
theorem from_dict_total_pages (po : Int) (d : RawInvoice) :
    (Invoice.from_dict po d).total_pages =
      max ((((d.listOfItems.getD []).length + 10 - 1) / 10 : Nat) : Int)
        (pyMaxD 1 ((d.listOfItems.getD []).map (fun it => it.pageNumber.getD 1))) := rfl

/-- Projection of `Invoice.from_dict`: the stored (clamped) current page. -/
theorem from_dict_page (po : Int) (d : RawInvoice) :
    (Invoice.from_dict po d).page =
      max 1 (min (d.page.getD 1) (Invoice.from_dict po d).total_pages) := rfl

/-- Projection of `Invoice.from_dict`: the item list. -/
theorem from_dict_items (po : Int) (d : RawInvoice) :
    (Invoice.from_dict po d).Items =
      (d.listOfItems.getD []).enum.map (fun p =>
        InvoiceItem.from_dict
          { p.2 with pageNumber := some ((p.1 / 10 : Nat) + 1),
                     itemIndex := some ((p.1 % 10 : Nat)) }) := rfl

/-- Projection of `Invoice.from_dict`: the resolved location. -/
theorem from_dict_location (po : Int) (d : RawInvoice) :
    (Invoice.from_dict po d).location =
      (if Invoice.extract_location_from_address (d.shippingAddress.getD "") = "N/A"
       then Invoice.extract_location_from_address (d.soldToAddress.getD "")
       else Invoice.extract_location_from_address (d.shippingAddress.getD "")) := rfl

theorem ceil_div_ten_pos {n : Nat} (h : 1 ≤ n) : 1 ≤ (n + 10 - 1) / 10 :=
  (Nat.le_div_iff_mul_le (by norm_num)).mpr (by omega)

/-! ## Claim C7 -/

/-- A raw item dict with no keys at all. -/
def emptyRawItem : RawItem := {}

/-- Claim C7 is false as stated: `InvoiceItem.from_dict` applied to a raw
item dict missing the quantity, currency, category and split-price fields
yields `0`, `""`, `""` and `""` — not the documented defaults `1.0`, `"USD"`,
`"OTHER"`, `"N/A"` (which appear only in the extraction prompt). -/
theorem claim_C7_counterexample :
    (InvoiceItem.from_dict emptyRawItem).Quantity_In_a_Case = 0
  ∧ (InvoiceItem.from_dict emptyRawItem).Quantity_In_a_Case ≠ promptDefaultQuantity
  ∧ (InvoiceItem.from_dict emptyRawItem).Currency = ""
  ∧ (InvoiceItem.from_dict emptyRawItem).Currency ≠ promptDefaultCurrency
  ∧ (InvoiceItem.from_dict emptyRawItem).Product_Category = ""
  ∧ (InvoiceItem.from_dict emptyRawItem).Product_Category ≠ promptDefaultCategory
  ∧ (InvoiceItem.from_dict emptyRawItem).Split_Price = ""
  ∧ (InvoiceItem.from_dict emptyRawItem).Split_Price ≠ promptDefaultSplitPrice := by
  decide

/-- Claim C7 (amended): when converting a raw item dict into a typed
`InvoiceItem`, a missing quantity field defaults to `0.0` and missing
`Currency` / `Product Category` / `Split Price` fields default to the empty
string; the documented defaults `1.0` / `"USD"` / `"OTHER"` / `"N/A"` are the
extraction prompt's instructions to the engine, not conversion behaviour. -/
theorem claim_C7_amended (d : RawItem) :
    (d.quantityInACase = none → (InvoiceItem.from_dict d).Quantity_In_a_Case = 0)
  ∧ (d.measurementOfEachItem = none →
      (InvoiceItem.from_dict d).Measurement_Of_Each_Item = 0)
  ∧ (d.quantityShipped = none → (InvoiceItem.from_dict d).Quantity_Shipped = 0)
  ∧ (d.currency = none → (InvoiceItem.from_dict d).Currency = "")
  ∧ (d.productCategory = none → (InvoiceItem.from_dict d).Product_Category = "")
  ∧ (d.splitPrice = none → (InvoiceItem.from_dict d).Split_Price = "")
  ∧ promptDefaultQuantity = 1 ∧ promptDefaultCurrency = "USD"
  ∧ promptDefaultCategory = "OTHER" ∧ promptDefaultSplitPrice = "N/A" := by
  refine ⟨fun h => ?_, fun h => ?_, fun h => ?_, fun h => ?_, fun h => ?_,
    fun h => ?_, rfl, rfl, rfl, rfl⟩ <;>
  simp [InvoiceItem.from_dict, h]

theorem claim_C7_witness :
    (InvoiceItem.from_dict emptyRawItem).Quantity_In_a_Case = 0
  ∧ (InvoiceItem.from_dict emptyRawItem).Currency = ""
  ∧ (InvoiceItem.from_dict emptyRawItem).Product_Category = ""
  ∧ (InvoiceItem.from_dict emptyRawItem).Split_Price = "" :=
  ⟨(claim_C7_amended emptyRawItem).1 rfl,
   (claim_C7_amended emptyRawItem).2.2.2.1 rfl,
   (claim_C7_amended emptyRawItem).2.2.2.2.1 rfl,
   (claim_C7_amended emptyRawItem).2.2.2.2.2.1 rfl⟩

/-! ## Claim C10 -/

/-- Claim C10: for every input dict, `Invoice.from_dict` produces
`total_pages ≥ 1`, `total_pages` at least every page number already carried
by an incoming item, and a current page clamped into `[1, total_pages]`
whatever `'page'` value the input requests. -/
theorem claim_C10_pagination_invariants (po : Int) (d : RawInvoice) :
    1 ≤ (Invoice.from_dict po d).total_pages
  ∧ (∀ it ∈ d.listOfItems.getD [], ∀ v : Int, it.pageNumber = some v →
      v ≤ (Invoice.from_dict po d).total_pages)
  ∧ 1 ≤ (Invoice.from_dict po d).page
  ∧ (Invoice.from_dict po d).page ≤ (Invoice.from_dict po d).total_pages := by
  have h1 : 1 ≤ (Invoice.from_dict po d).total_pages := by
    rw [from_dict_total_pages]
    cases hl : d.listOfItems.getD [] with
    | nil => simp [pyMaxD]
    | cons x xs =>
      refine le_trans ?_ (le_max_left _ _)
      have : 1 ≤ ((x :: xs).length + 10 - 1) / 10 := ceil_div_ten_pos (by simp)
      exact_mod_cast this
  refine ⟨h1, ?_, ?_, ?_⟩
  · intro it hit v hv
    rw [from_dict_total_pages]
    refine le_trans ?_ (le_max_right _ _)
    have hm : v ∈ (d.listOfItems.getD []).map (fun it => it.pageNumber.getD 1) :=
      List.mem_map.mpr ⟨it, hit, by rw [hv]; rfl⟩
    exact pyMaxD_le_of_mem 1 hm
  · rw [from_dict_page]; exact le_max_left 1 _
  · rw [from_dict_page]; exact max_le h1 (min_le_right _ _)

/-- An input whose single item already carries `page_number = 5` and which
requests `page = 99`. -/
def rawC10It : RawItem := { pageNumber := some 5 }

def rawC10 : RawInvoice := { listOfItems := some [rawC10It], page := some 99 }

theorem claim_C10_witness :
    1 ≤ (Invoice.from_dict 1 rawC10).total_pages
  ∧ (5 : Int) ≤ (Invoice.from_dict 1 rawC10).total_pages
  ∧ 1 ≤ (Invoice.from_dict 1 rawC10).page
  ∧ (Invoice.from_dict 1 rawC10).page ≤ (Invoice.from_dict 1 rawC10).total_pages :=
  ⟨(claim_C10_pagination_invariants 1 rawC10).1,
   (claim_C10_pagination_invariants 1 rawC10).2.1 rawC10It
     (by simp [rawC10]) 5 rfl,
   (claim_C10_pagination_invariants 1 rawC10).2.2.1,
   (claim_C10_pagination_invariants 1 rawC10).2.2.2⟩

/-! ## Claim C4 -/

/-- An input with one item that already carries `page_number = 5`. -/
def rawC4 : RawInvoice := { listOfItems := some [{ pageNumber := some 5 }] }

/-- Claim C4 is false as stated: with one incoming item already tagged
`page_number = 5`, `Invoice.from_dict` sets `total_pages = 5`, not
`ceil(1/10) = 1`. -/
theorem claim_C4_counterexample :
    (Invoice.from_dict 11111 rawC4).total_pages = 5
  ∧ ((((rawC4.listOfItems.getD []).length + 10 - 1) / 10 : Nat) : Int) = 1
  ∧ (Invoice.from_dict 11111 rawC4).total_pages ≠
      ((((rawC4.listOfItems.getD []).length + 10 - 1) / 10 : Nat) : Int) := by
  decide

/-- An invoice dict with 23 fieldless items. -/
def raw23 : RawInvoice := { listOfItems := some (List.replicate 23 emptyRawItem) }

/-- Claim C4 (amended): the item at 0-based index `k` is annotated with
`page_number = k / 10 + 1` and `item_index = k % 10`; `total_pages` is the
maximum of `ceil(n / 10)` and the largest page number already carried by an
incoming item (default 1) — equal to `ceil(n / 10)` whenever `n ≥ 1` and no
incoming page number exceeds it; an invoice with 23 items yields
`total_pages = 3` with page item-counts 10, 10 and 3. -/
theorem claim_C4_amended :
    (∀ (po : Int) (d : RawInvoice) (k : Nat)
        (h : k < (Invoice.from_dict po d).Items.length),
        ((Invoice.from_dict po d).Items[k]).page_number = ((k / 10 : Nat) : Int) + 1
      ∧ ((Invoice.from_dict po d).Items[k]).item_index = ((k % 10 : Nat) : Int))
  ∧ (∀ (po : Int) (d : RawInvoice),
        (Invoice.from_dict po d).total_pages =
          max ((((d.listOfItems.getD []).length + 10 - 1) / 10 : Nat) : Int)
            (pyMaxD 1 ((d.listOfItems.getD []).map (fun it => it.pageNumber.getD 1))))
  ∧ (∀ (po : Int) (d : RawInvoice),
        1 ≤ (d.listOfItems.getD []).length →
        (∀ it ∈ d.listOfItems.getD [],
          it.pageNumber.getD 1 ≤
            ((((d.listOfItems.getD []).length + 10 - 1) / 10 : Nat) : Int)) →
        (Invoice.from_dict po d).total_pages =
          ((((d.listOfItems.getD []).length + 10 - 1) / 10 : Nat) : Int))
  ∧ ((Invoice.from_dict 11111 raw23).total_pages = 3
      ∧ (Invoice.from_dict 11111 raw23).Items.length = 23
      ∧ ((Invoice.from_dict 11111 raw23).get_items_for_page 1).length = 10
      ∧ ((Invoice.from_dict 11111 raw23).get_items_for_page 2).length = 10
      ∧ ((Invoice.from_dict 11111 raw23).get_items_for_page 3).length = 3) := by
  refine ⟨?_, ?_, ?_, ?_⟩
  · intro po d k h
    have hk : k < (d.listOfItems.getD []).length := by
      simpa [from_dict_items] using h
    constructor <;>
      simp [from_dict_items, InvoiceItem.from_dict, List.getElem_map,
        List.getElem_enum]
  · intro po d
    exact from_dict_total_pages po d
  · intro po d hn hb
    rw [from_dict_total_pages]
    refine max_eq_left (pyMaxD_le ?_ ?_)
    · cases hl : d.listOfItems.getD [] with
      | nil => rw [hl] at hn; cases hn
      | cons x xs => simp
    · intro a ha
      rcases List.mem_map.mp ha with ⟨it, hit, rfl⟩
      exact hb it hit
  · decide

theorem claim_C4_witness :
    ((Invoice.from_dict 11111 raw23).Items.get ⟨13, by decide⟩).page_number = 2
  ∧ ((Invoice.from_dict 11111 raw23).Items.get ⟨13, by decide⟩).item_index = 3
  ∧ (Invoice.from_dict 11111 raw23).total_pages =
      ((((raw23.listOfItems.getD []).length + 10 - 1) / 10 : Nat) : Int) := by
  refine ⟨?_, ?_, ?_⟩
  · exact (claim_C4_amended.1 11111 raw23 13 (by decide)).1
  · exact (claim_C4_amended.1 11111 raw23 13 (by decide)).2
  · exact claim_C4_amended.2.2.1 11111 raw23 (by decide) (by decide)

/-! ## Claim C5 -/

theorem locScanAux_none (parts : List String)
    (h : ∀ p ∈ parts.tail, findStateCode p = none) :
    ∀ j, locScanAux parts j = none := by
  intro j
  induction j with
  | zero => rfl
  | succ i ih =>
    have hnone : findStateCode ((parts.get? (i + 1)).getD "") = none := by
      cases hp : parts.get? (i + 1) with
      | none => rfl
      | some p =>
        have hmem : p ∈ parts.tail := by
          cases parts with
          | nil => simp at hp
          | cons a t =>
            exact List.get?_mem (by simpa using hp)
        simpa using h p hmem
    simp only [locScanAux]
    rw [hnone]
    exact ih

/-- An invoice dict whose shipping address resolves. -/
def rawC5 : RawInvoice :=
  { shippingAddress := some "123 Main St, Springfield, IL 62704" }

/-- Claim C5: the location resolver returns "City, ST" from the component
before the last two-uppercase-letter state token (digits stripped from the
city), `"N/A"` when no component after the first holds such a token, and
`Invoice.from_dict` applies it to the shipping address first, falling back to
the sold-to address exactly when the shipping address yields `"N/A"`. -/
theorem claim_C5_location_resolver :
    Invoice.extract_location_from_address "123 Main St, Springfield, IL 62704"
      = "Springfield, IL"
  ∧ Invoice.extract_location_from_address "500 Elm St 2, Dallas 75, TX 75201"
      = "Dallas, TX"
  ∧ (∀ address : String,
      (∀ p ∈ (addressParts address).tail, findStateCode p = none) →
      Invoice.extract_location_from_address address = "N/A")
  ∧ (∀ (po : Int) (d : RawInvoice),
      Invoice.extract_location_from_address (d.shippingAddress.getD "") ≠ "N/A" →
      (Invoice.from_dict po d).location =
        Invoice.extract_location_from_address (d.shippingAddress.getD ""))
  ∧ (∀ (po : Int) (d : RawInvoice),
      Invoice.extract_location_from_address (d.shippingAddress.getD "") = "N/A" →
      (Invoice.from_dict po d).location =
        Invoice.extract_location_from_address (d.soldToAddress.getD "")) := by
  refine ⟨by decide, by decide, ?_, ?_, ?_⟩
  · intro address h
    by_cases he : address = ""
    · simp [Invoice.extract_location_from_address, he]
    · simp [Invoice.extract_location_from_address, he,
        locScanAux_none (addressParts address) h]
  · intro po d h
    rw [from_dict_location, if_neg h]
  · intro po d h
    rw [from_dict_location, if_pos h]

theorem claim_C5_witness :
    Invoice.extract_location_from_address "no state token, anywhere at all" = "N/A"
  ∧ (Invoice.from_dict 1 rawC5).location =
      Invoice.extract_location_from_address
        (rawC5.shippingAddress.getD "") :=
  ⟨claim_C5_location_resolver.2.2.1 "no state token, anywhere at all" (by decide),
   claim_C5_location_resolver.2.2.2.1 1 rawC5 (by decide)⟩

/-! ## Claim C3 -/

/-- Number of numeric tokens in a token list. -/
def numericCount (ts : List String) : Nat :=
  (ts.filter (fun t => (parseQNum t).isSome)).length

theorem splitFirstNum_append_none {pre : List String}
    (h : ∀ t ∈ pre, parseQNum t = none) {n : String} {v : ℚ}
    (hn : parseQNum n = some v) (rest : List String) :
    splitFirstNum (pre ++ n :: rest) = some (v, rest) := by
  induction pre with
  | nil => simp [splitFirstNum, hn]
  | cons t ts ih =>
    simp [splitFirstNum, h t (List.mem_cons_self _ _),
      ih (fun a ha => h a (List.mem_cons_of_mem _ ha))]

theorem splitFirstNum_none {ts : List String}
    (h : ∀ t ∈ ts, parseQNum t = none) : splitFirstNum ts = none := by
  induction ts with
  | nil => rfl
  | cons t ts ih =>
    simp [splitFirstNum, h t (List.mem_cons_self _ _),
      ih (fun a ha => h a (List.mem_cons_of_mem _ ha))]

theorem numericCount_of_split_some {ts : List String} {v : ℚ} {rest : List String}
    (h : splitFirstNum ts = some (v, rest)) :
    numericCount ts = numericCount rest + 1 := by
  induction ts with
  | nil => simp [splitFirstNum] at h
  | cons t ts ih =>
    by_cases hp : (parseQNum t).isSome
    · rcases Option.isSome_iff_exists.mp hp with ⟨w, hw⟩
      rw [splitFirstNum, hw] at h
      cases h
      simp [numericCount, hw]
    · have hq : parseQNum t = none := Option.not_isSome_iff_eq_none.mp hp
      rw [splitFirstNum, hq] at h
      simpa [numericCount, hq] using ih h

theorem numericCount_zero_all_none {ts : List String}
    (h : numericCount ts = 0) : ∀ t ∈ ts, parseQNum t = none := by
  intro t ht
  have := List.filter_eq_nil_iff.mp (List.length_eq_zero.mp h) t ht
  simpa using this

/-- Claim C3 (the pack-size parser and unit table are natural-language prompt
instructions executed by the extraction engine, so they are modelled from the
spec): the first number of a pack-size token sequence is quantity-in-case,
the second is measurement-of-each-item, the token after the second number is
the unit, canonicalised through the Unit Mapping Table; with
quantity-shipped = 1, `"6 64 OZ"` gives case 6, measurement 64, unit
`"ounces"` and total-units-ordered 384; fewer than two numeric tokens ⇒ both
quantities default to 1. -/
theorem claim_C3_pack_size :
    parsePackSize "6 64 OZ" = (6, 64, "ounces")
  ∧ totalUnitsOrderedOf (parsePackSize "6 64 OZ").1 (parsePackSize "6 64 OZ").2.1 1
      = 384
  ∧ (∀ (pre mid rest : List String) (n₁ n₂ u : String) (v₁ v₂ : ℚ),
      (∀ t ∈ pre, parseQNum t = none) → (∀ t ∈ mid, parseQNum t = none) →
      parseQNum n₁ = some v₁ → parseQNum n₂ = some v₂ →
      packSizeFromTokens (pre ++ n₁ :: (mid ++ n₂ :: u :: rest)) =
        (v₁, v₂, canonicalUnit u))
  ∧ (∀ ts : List String, numericCount ts < 2 → packSizeFromTokens ts = (1, 1, ""))
  ∧ canonicalUnit "OZ" = "ounces" := by
  refine ⟨by decide, ?_, ?_, ?_, by decide⟩
  · have h1 : parsePackSize "6 64 OZ" = (6, 64, "ounces") := by decide
    rw [h1]
    norm_num [totalUnitsOrderedOf]
  · intro pre mid rest n₁ n₂ u v₁ v₂ hpre hmid h1 h2
    simp [packSizeFromTokens, splitFirstNum_append_none hpre h1,
      splitFirstNum_append_none hmid h2]
  · intro ts hc
    cases hs : splitFirstNum ts with
    | none => simp [packSizeFromTokens, hs]
    | some p =>
      obtain ⟨v, rest⟩ := p
      have h1 : numericCount ts = numericCount rest + 1 :=
        numericCount_of_split_some hs
      have h2 : numericCount rest = 0 := by omega
      have h3 : splitFirstNum rest = none :=
        splitFirstNum_none (numericCount_zero_all_none h2)
      simp [packSizeFromTokens, hs, h3]

/-! ## Claim C2 -/

/-- A code-fenced reply with a leading `json` language tag. -/
def fencedReply : String := "```json\n\x7b\"a\":1\x7d\n```"

/-- The spec's strategy-2 example: two balanced objects amid noise. -/
def twoObjReply : String :=
  "noise \x7b\"a\":1\x7d more noise \x7b\"b\":2\x7d trailing"

/-- Leading junk followed by one valid object. -/
def junkThenObjReply : String := "oops \x7b\"a\":1\x7d"

/-- One valid object containing a closing brace inside a string — only the
first-`{`-to-last-`}` fallback can recover it (the depth counter is fooled). -/
def braceInStrReply : String := "x \x7b\"a\":\"\x7d\"\x7d"

/-- Text none of the strategies can parse. -/
def garbageReply : String := "hello world"

/-- Claim C2 is false as stated: on the spec's own strategy-2 example the
pipeline's recovery (`send_to_gpt`, the only recovery the pipeline calls)
yields `None` instead of recovering the two balanced objects — it never
attempts the balanced-brace scan. -/
theorem claim_C2_counterexample : send_to_gpt_recover twoObjReply = none := rfl

/-- Claim C2 (amended): recovery is split across two functions, neither of
which attempts all three layers.  The pipeline's `send_to_gpt` tries
(1) non-printable/fence stripping + direct parse, then (3) the
first-`{`-to-last-`}` substring, and yields `None` without raising when both
fail; the balanced-brace scan (2) exists only in the helper
`Removingunwanted_from_Json` — which tries stripping + direct parse and then
the scan, but never the first/last-brace fallback — and that helper is never
called by the pipeline. -/
theorem claim_C2_amended :
    (∀ (reply : String) (v : JValue),
      pyLoads (fenceStripped reply) = some v → send_to_gpt_recover reply = some v)
  ∧ (∀ reply : String, pyLoads (fenceStripped reply) = none →
      send_to_gpt_recover reply = pyLoads (braceSpan (fenceStripped reply)))
  ∧ send_to_gpt_recover fencedReply = some (.jobj [("a", .jnum "1")])
  ∧ send_to_gpt_recover twoObjReply = none
  ∧ Removingunwanted_from_Json twoObjReply =
      some (.scanned [.jobj [("a", .jnum "1")], .jobj [("b", .jnum "2")]])
  ∧ send_to_gpt_recover junkThenObjReply = some (.jobj [("a", .jnum "1")])
  ∧ Removingunwanted_from_Json braceInStrReply = none
  ∧ send_to_gpt_recover braceInStrReply = some (.jobj [("a", .jstr "\x7d")])
  ∧ send_to_gpt_recover garbageReply = none
  ∧ Removingunwanted_from_Json garbageReply = none := by
  refine ⟨?_, ?_, rfl, rfl, rfl, rfl, rfl, rfl, rfl, rfl⟩
  · intro reply v h
    simp [send_to_gpt_recover, h]
  · intro reply h
    simp [send_to_gpt_recover, h]

theorem claim_C2_witness :
    send_to_gpt_recover fencedReply = some (.jobj [("a", .jnum "1")])
  ∧ send_to_gpt_recover garbageReply =
      pyLoads (braceSpan (fenceStripped garbageReply)) :=
  ⟨claim_C2_amended.1 fencedReply (.jobj [("a", .jnum "1")]) rfl,
   claim_C2_amended.2.1 garbageReply rfl⟩

/-! ## Claim C6 -/

theorem dropPre_eq_some : ∀ {p cs r : List Char}, dropPre p cs = some r → cs = p ++ r := by
  intro p
  induction p with
  | nil =>
    intro cs r h
    simpa [dropPre] using h
  | cons x xs ih =>
    intro cs r h
    cases cs with
    | nil => simp [dropPre] at h
    | cons c cs' =>
      rw [dropPre] at h
      by_cases hx : x = c
      · subst hx
        simpa using ih (by simpa using h)
      · simp [hx] at h

theorem dropPre_append {p cs r : List Char} (h : dropPre p cs = some r)
    (t : List Char) : dropPre p (cs ++ t) = some (r ++ t) := by
  induction p generalizing cs r with
  | nil =>
    simp [dropPre] at h
    simp [dropPre, h]
  | cons x xs ih =>
    cases cs with
    | nil => simp [dropPre] at h
    | cons c cs' =>
      rw [dropPre] at h
      by_cases hx : x = c
      · subst hx
        simp at h
        simpa [dropPre] using ih h
      · simp [hx] at h

theorem startsWithChars_append {pat cs : List Char}
    (h : startsWithChars pat cs = true) (t : List Char) :
    startsWithChars pat (cs ++ t) = true := by
  rw [startsWithChars] at h ⊢
  obtain ⟨r, hr⟩ := Option.isSome_iff_exists.mp h
  simp [dropPre_append hr t]

theorem joinNL_starts {head : List Char} (t : List (List Char))
    (h : startsWithChars tableMarkerTest head = true) :
    startsWithChars tableMarkerTest (joinNL (head :: t)) = true := by
  cases t with
  | nil => simpa [joinNL] using h
  | cons q qs =>
    show startsWithChars tableMarkerTest (head ++ '\n' :: joinNL (q :: qs)) = true
    exact startsWithChars_append h _

theorem matchMarker_join {cs m rest : List Char}
    (h : matchMarker cs = some (m, rest)) : m ++ rest = cs := by
  rw [matchMarker] at h
  cases h₁ : dropPre tableMarkerHead cs with
  | none => rw [h₁] at h; cases h
  | some r₁ =>
    rw [h₁] at h
    by_cases hd : (r₁.takeWhile Char.isDigit).isEmpty
    · simp [hd] at h
    · simp only [hd, Bool.false_eq_true, if_false] at h
      cases h₂ : dropPre tableMarkerTail (r₁.dropWhile Char.isDigit) with
      | none => rw [h₂] at h; cases h
      | some r₂ =>
        rw [h₂] at h
        cases h
        have e₁ : cs = tableMarkerHead ++ r₁ := dropPre_eq_some h₁
        have e₂ : r₁.dropWhile Char.isDigit = tableMarkerTail ++ rest :=
          dropPre_eq_some h₂
        have e₃ : r₁.takeWhile Char.isDigit ++ r₁.dropWhile Char.isDigit = r₁ :=
          List.takeWhile_append_dropWhile _ _
        rw [e₁, List.append_assoc, List.append_assoc]
        congr 1
        rw [← e₂]
        exact e₃

theorem matchMarker_marker_test {cs m rest : List Char}
    (h : matchMarker cs = some (m, rest)) :
    startsWithChars tableMarkerTest m = true := by
  rw [matchMarker] at h
  cases h₁ : dropPre tableMarkerHead cs with
  | none => rw [h₁] at h; cases h
  | some r₁ =>
    rw [h₁] at h
    by_cases hd : (r₁.takeWhile Char.isDigit).isEmpty
    · simp [hd] at h
    · simp only [hd, Bool.false_eq_true, if_false] at h
      cases h₂ : dropPre tableMarkerTail (r₁.dropWhile Char.isDigit) with
      | none => rw [h₂] at h; cases h
      | some r₂ =>
        rw [h₂] at h
        cases h
        have hstart : startsWithChars tableMarkerTest tableMarkerHead = true := by
          decide
        have := startsWithChars_append hstart
          (r₁.takeWhile Char.isDigit ++ tableMarkerTail)
        simpa [List.append_assoc] using this

theorem reSplitGo_join : ∀ (fuel : Nat) (cs : List Char),
    (reSplitGo fuel cs).1 ++
        (((reSplitGo fuel cs).2.map (fun pr => pr.1 ++ pr.2)).flatten) = cs := by
  intro fuel
  induction fuel with
  | zero => intro cs; simp [reSplitGo]
  | succ n ih =>
    intro cs
    cases cs with
    | nil => simp [reSplitGo, show matchMarker [] = none from rfl]
    | cons c cs' =>
      cases hm : matchMarker (c :: cs') with
      | some pr =>
        obtain ⟨m, rest⟩ := pr
        have hrest := ih rest
        simp only [reSplitGo, hm, List.map_cons, List.flatten_cons,
          List.nil_append]
        rw [← matchMarker_join hm, List.append_assoc, hrest]
      | none =>
        have := ih cs'
        simp only [reSplitGo, hm, List.cons_append]
        rw [this]

theorem reSplitGo_pairs_marker : ∀ (fuel : Nat) (cs : List Char),
    ∀ pr ∈ (reSplitGo fuel cs).2, startsWithChars tableMarkerTest pr.1 = true := by
  intro fuel
  induction fuel with
  | zero => intro cs pr h; simp [reSplitGo] at h
  | succ n ih =>
    intro cs pr h
    cases cs with
    | nil => simp [reSplitGo, show matchMarker [] = none from rfl] at h
    | cons c cs' =>
      cases hm : matchMarker (c :: cs') with
      | some p =>
        obtain ⟨m, rest⟩ := p
        simp only [reSplitGo, hm] at h
        rcases List.mem_cons.mp h with rfl | h'
        · exact matchMarker_marker_test hm
        · exact ih rest pr h'
      | none =>
        simp only [reSplitGo, hm] at h
        exact ih cs' pr h

theorem chunksLoop_all_marker : ∀ (parts : List (List Char)) (head : List Char)
    (tailc : List (List Char)),
    startsWithChars tableMarkerTest head = true →
    ∀ c ∈ chunksLoop parts (head :: tailc),
      startsWithChars tableMarkerTest c = true := by
  intro parts
  induction parts with
  | nil =>
    intro head tailc hh c hc
    simp [chunksLoop] at hc
    subst hc
    exact joinNL_starts tailc hh
  | cons p rest ih =>
    intro head tailc hh c hc
    cases hp : startsWithChars tableMarkerTest p with
    | true =>
      simp only [chunksLoop, hp, List.isEmpty_cons, if_true, Bool.false_eq_true,
        if_false] at hc
      rcases List.mem_cons.mp hc with rfl | h'
      · exact joinNL_starts tailc hh
      · exact ih p [] hp c h'
    | false =>
      simp only [chunksLoop, hp, Bool.false_eq_true, if_false] at hc
      exact ih head (tailc ++ [p]) hh c (by simpa using hc)

theorem chunksLoop_tail_marker : ∀ (parts : List (List Char))
    (current : List (List Char)),
    ∀ c ∈ (chunksLoop parts current).tail,
      startsWithChars tableMarkerTest c = true := by
  intro parts
  induction parts with
  | nil =>
    intro current c hc
    cases current <;> simp [chunksLoop] at hc
  | cons p rest ih =>
    intro current c hc
    cases hp : startsWithChars tableMarkerTest p with
    | true =>
      cases current with
      | nil =>
        simp only [chunksLoop, hp, List.isEmpty_nil, if_true] at hc
        exact ih [p] c hc
      | cons x xs =>
        simp only [chunksLoop, hp, List.isEmpty_cons, if_true, Bool.false_eq_true,
          if_false, List.tail_cons] at hc
        exact chunksLoop_all_marker rest p [] hp c hc
    | false =>
      simp only [chunksLoop, hp, Bool.false_eq_true, if_false] at hc
      exact ih (current ++ [p]) c hc

theorem hlpLoop_eq_foldChunks (oracle : String → Option PageResult) :
    ∀ (parts : List (List Char)) (current : List (List Char))
      (st : Option Frag × List Frag),
    hlpLoop oracle parts current st = foldChunks oracle st (chunksLoop parts current) := by
  intro parts
  induction parts with
  | nil =>
    intro current st
    cases current with
    | nil => simp [hlpLoop, chunksLoop, foldChunks]
    | cons x xs =>
      simp only [hlpLoop, chunksLoop, List.isEmpty_cons, Bool.false_eq_true,
        if_false, foldChunks]
      cases hg : gptStep oracle st (joinNL (x :: xs)) <;> simp [foldChunks]
  | cons p rest ih =>
    intro current st
    cases hp : startsWithChars tableMarkerTest p with
    | true =>
      cases current with
      | nil =>
        simp only [hlpLoop, chunksLoop, hp, List.isEmpty_nil, if_true]
        exact ih [p] st
      | cons x xs =>
        simp only [hlpLoop, chunksLoop, hp, List.isEmpty_cons, if_true,
          Bool.false_eq_true, if_false, foldChunks]
        cases hg : gptStep oracle st (joinNL (x :: xs)) with
        | error e => rfl
        | ok st' => exact ih [p] st'
    | false =>
      simp only [hlpLoop, chunksLoop, hp, Bool.false_eq_true, if_false]
      exact ih (current ++ [p]) st

theorem pairsFlat_eq (pairs : List (List Char × List Char)) :
    ((pairs.map (fun pr => [pr.1, pr.2])).flatten).flatten =
      (pairs.map (fun pr => pr.1 ++ pr.2)).flatten := by
  induction pairs with
  | nil => rfl
  | cons pr ps ih => simp [ih]

theorem reSplitParts_flatten (s : String) : (reSplitParts s).flatten = s.data := by
  rw [reSplitParts]
  simp only [List.flatten_cons, pairsFlat_eq]
  exact reSplitGo_join (s.data.length + 1) s.data

/-- Claim C6: a page strictly longer than 16000 characters is processed by
splitting at the `----- Table N Start -----` markers into ordered segments,
each sent independently through the extraction oracle and folded into the
merge state in segment order with the whole-page semantics (`gptStep`, i.e.
`send_to_gpt` + truthiness check + `process_page_result`), the final segment
included; every segment after the first begins at a table-start marker and
the split loses no text. -/
theorem claim_C6_oversized_page :
    (∀ (oracle : String → Option PageResult) (page_text : String)
        (st : Option Frag × List Frag),
      processPage oracle page_text st =
        if 16000 < page_text.length then
          foldChunks oracle st (pageChunks page_text)
        else gptStep oracle st page_text.data)
  ∧ (∀ s : String, ∀ c ∈ (pageChunks s).tail,
      startsWithChars tableMarkerTest c = true)
  ∧ (∀ s : String, (reSplitParts s).flatten = s.data) := by
  refine ⟨?_, ?_, ?_⟩
  · intro oracle page_text st
    by_cases h : 16000 < page_text.length
    · simp [processPage, h, handle_large_page, pageChunks,
        hlpLoop_eq_foldChunks]
    · simp [processPage, h]
  · intro s c hc
    exact chunksLoop_tail_marker (reSplitParts s) [] c hc
  · exact reSplitParts_flatten

/-- A small formatted page with one table. -/
def textC6 : String := "intro\n----- Table 1 Start -----\nRow"

theorem claim_C6_witness :
    startsWithChars tableMarkerTest ("----- Table 1 Start -----\n\nRow".data) = true
  ∧ processPage (fun _ => none) textC6 (none, []) =
      gptStep (fun _ => none) (none, []) textC6.data
  ∧ (reSplitParts textC6).flatten = textC6.data :=
  ⟨claim_C6_oversized_page.2.1 textC6 _ (by decide),
   (claim_C6_oversized_page.1 (fun _ => none) textC6 (none, [])).trans
     (if_neg (by decide)),
   claim_C6_oversized_page.2.2 textC6⟩

/-! ## Claim C1 -/

/-- Claim C1: folding a fragment whose invoice number matches the open
invoice appends all its items in order (duplicates retained) and overwrites
the total exactly when the fragment provides a non-zero total; a fragment
with a different invoice number closes the open invoice (appending it to the
completed list) and becomes the new open invoice; folding fragments for
invoices "A" then "B" and flushing yields the two completed invoices with
"A" first. -/
theorem claim_C1_merge_fold :
    (∀ (cf nf : Frag) (all : List Frag) (a : String) (ci li : List Nat),
      cf.invoiceNumber = some a → nf.invoiceNumber = some a →
      cf.items = some ci → nf.items = some li →
      merge_or_add_invoice nf (some cf) all =
        .ok (some { cf with
                    items := some (ci ++ li),
                    total := if pyTruthyTotal nf.total then nf.total
                             else cf.total }, all))
  ∧ (∀ t : Option ℚ, pyTruthyTotal t = true ↔ ∃ q : ℚ, t = some q ∧ q ≠ 0)
  ∧ (∀ (cf nf : Frag) (all : List Frag) (a b : String),
      cf.invoiceNumber = some a → nf.invoiceNumber = some b → a ≠ b →
      merge_or_add_invoice nf (some cf) all = .ok (some nf, all ++ [cf]))
  ∧ (∀ (fa fb : Frag) (a b : String),
      fa.invoiceNumber = some a → fb.invoiceNumber = some b → a ≠ b →
      process_invoice_pages [some (.list [fa, fb])] = [fa, fb]) := by
  refine ⟨?_, ?_, ?_, ?_⟩
  · intro cf nf all a ci li hcf hnf hci hli
    have tnf : fragTruthy nf = true := by simp [fragTruthy, hnf]
    have tcf : fragTruthy cf = true := by simp [fragTruthy, hcf]
    simp [merge_or_add_invoice, tnf, tcf, hnf, hcf, hci, fragItems, hli]
  · intro t
    cases t with
    | none => simp [pyTruthyTotal]
    | some q => simp [pyTruthyTotal]
  · intro cf nf all a b hcf hnf hab
    have tnf : fragTruthy nf = true := by simp [fragTruthy, hnf]
    have tcf : fragTruthy cf = true := by simp [fragTruthy, hcf]
    have hne : ¬ nf.invoiceNumber = cf.invoiceNumber := by
      rw [hcf, hnf]
      simpa using fun h => hab h.symm
    simp [merge_or_add_invoice, tnf, tcf, hne]
  · intro fa fb a b hfa hfb hab
    have tfa : fragTruthy fa = true := by simp [fragTruthy, hfa]
    have tfb : fragTruthy fb = true := by simp [fragTruthy, hfb]
    have hne : ¬ fb.invoiceNumber = fa.invoiceNumber := by
      rw [hfa, hfb]
      simpa using fun h => hab h.symm
    simp [process_invoice_pages, pageStep, resultTruthy, process_page_result,
      mergeFold, merge_or_add_invoice, tfa, tfb, hne, flushInvoices]

/-- A first fragment of invoice "A". -/
def fragA1 : Frag := ⟨some "A", some [1, 2], some 9, false⟩

/-- A second fragment of invoice "A" repeating item 2 (duplicates must be
retained) and providing a non-zero total. -/
def fragA2 : Frag := ⟨some "A", some [2, 3], some 5, false⟩

/-- A fragment of invoice "B". -/
def fragB1 : Frag := ⟨some "B", some [4], none, false⟩

theorem claim_C1_witness :
    merge_or_add_invoice fragA2 (some fragA1) [] =
      .ok (some { fragA1 with
                  items := some ([1, 2] ++ [2, 3]),
                  total := if pyTruthyTotal fragA2.total then fragA2.total
                           else fragA1.total }, [])
  ∧ merge_or_add_invoice fragB1 (some fragA1) [] = .ok (some fragB1, [] ++ [fragA1])
  ∧ process_invoice_pages [some (.list [fragA1, fragB1])] = [fragA1, fragB1] :=
  ⟨claim_C1_merge_fold.1 fragA1 fragA2 [] "A" [1, 2] [2, 3] rfl rfl rfl rfl,
   claim_C1_merge_fold.2.2.1 fragA1 fragB1 [] "A" "B" rfl rfl (by decide),
   claim_C1_merge_fold.2.2.2 fragA1 fragB1 "A" "B" rfl rfl (by decide)⟩

/-! ## Claim C8 -/

/-- A truthy fragment with no invoice number and an empty item list. -/
def fragC8NoNum : Frag := ⟨none, some [], none, false⟩

/-- An open invoice "A". -/
def fragC8Open : Frag := ⟨some "A", some [1], some 3, false⟩

/-- Claim C8 is false as stated: folding a (truthy) fragment with no invoice
number and an empty item list against open invoice "A" is NOT a no-op — it
closes "A" into the completed list and installs the degenerate fragment as
the new open invoice. -/
theorem claim_C8_counterexample :
    merge_or_add_invoice fragC8NoNum (some fragC8Open) [] =
      .ok (some fragC8NoNum, [fragC8Open])
  ∧ fragC8NoNum ≠ fragC8Open
  ∧ ([fragC8Open] : List Frag) ≠ [] :=
  ⟨rfl, by decide, by decide⟩

/-- Claim C8 (amended): only a falsy fragment (`None` or a keyless dict) is
unconditionally a no-op fold; a truthy fragment with a missing invoice number
or an empty item list follows the ordinary merge rules — when its invoice
number matches the open invoice's and it provides no non-zero total, the
state is unchanged and no error is raised, but when the invoice numbers
differ it closes the open invoice and becomes the new open invoice. -/
theorem claim_C8_amended :
    (∀ (f : Frag) (cur : Option Frag) (all : List Frag),
      fragTruthy f = false → merge_or_add_invoice f cur all = .ok (cur, all))
  ∧ (∀ (cf nf : Frag) (all : List Frag) (a : String) (ci : List Nat),
      cf.invoiceNumber = some a → cf.items = some ci →
      nf.invoiceNumber = some a → nf.items = some [] →
      pyTruthyTotal nf.total = false →
      merge_or_add_invoice nf (some cf) all = .ok (some cf, all))
  ∧ (∀ (cf nf : Frag) (all : List Frag),
      fragTruthy nf = true → fragTruthy cf = true →
      nf.invoiceNumber ≠ cf.invoiceNumber →
      merge_or_add_invoice nf (some cf) all = .ok (some nf, all ++ [cf])) := by
  refine ⟨?_, ?_, ?_⟩
  · intro f cur all hf
    simp [merge_or_add_invoice, hf]
  · intro cf nf all a ci hcf hci hnf hni ht
    have tnf : fragTruthy nf = true := by simp [fragTruthy, hnf]
    have tcf : fragTruthy cf = true := by simp [fragTruthy, hcf]
    rcases cf with ⟨ncf, icf, tcf', kcf⟩
    simp only at hcf hci
    subst hcf hci
    simp [merge_or_add_invoice, tnf, tcf, hnf, hni, ht, fragItems]
  · intro cf nf all tnf tcf hne
    simp [merge_or_add_invoice, tnf, tcf, hne]

/-- A falsy fragment (models `None` or `{}`). -/
def fragC8Falsy : Frag := ⟨none, none, none, false⟩

/-- A matching-number fragment with an empty item list and no total. -/
def fragC8EmptyItems : Frag := ⟨some "A", some [], none, false⟩

theorem claim_C8_witness :
    merge_or_add_invoice fragC8Falsy (some fragC8Open) [] = .ok (some fragC8Open, [])
  ∧ merge_or_add_invoice fragC8EmptyItems (some fragC8Open) [] =
      .ok (some fragC8Open, [])
  ∧ merge_or_add_invoice fragC8NoNum (some fragC8Open) [] =
      .ok (some fragC8NoNum, [] ++ [fragC8Open]) :=
  ⟨claim_C8_amended.1 fragC8Falsy (some fragC8Open) [] (by decide),
   claim_C8_amended.2.1 fragC8Open fragC8EmptyItems [] "A" [1] rfl rfl rfl rfl
     (by decide),
   claim_C8_amended.2.2 fragC8Open fragC8NoNum [] (by decide) (by decide)
     (by decide)⟩

/-! ## Claim C9 -/

/-- The fragments delivered by one page's extraction result. -/
def fragsOfOpt (r : Option PageResult) : List Frag :=
  match r with
  | none => []
  | some pr => resultFrags pr

/-- The items delivered by one page's extraction result. -/
def resultItems (r : Option PageResult) : List Nat :=
  ((fragsOfOpt r).map fragItems).flatten

/-- Invariant: the open invoice (when present) carries a `'List of Items'`
key. -/
def curItemsOk (st : Option Frag × List Frag) : Prop :=
  ∀ cf, st.1 = some cf → cf.items.isSome

theorem merge_good (nf : Frag) (st : Option Frag × List Frag)
    (hnf : nf.items.isSome) (hcur : curItemsOk st) :
    ∃ st', merge_or_add_invoice nf st.1 st.2 = .ok st' ∧ curItemsOk st' ∧
      stateItems st' = stateItems st ++ fragItems nf := by
  obtain ⟨cur, all⟩ := st
  have tnf : fragTruthy nf = true := by simp [fragTruthy, hnf]
  cases cur with
  | none =>
    refine ⟨(some nf, all), ?_, ?_, ?_⟩
    · simp [merge_or_add_invoice, tnf]
    · intro cf h
      cases h
      exact hnf
    · simp [stateItems]
  | some cf =>
    have hcf : cf.items.isSome := hcur cf rfl
    obtain ⟨ci, hci⟩ := Option.isSome_iff_exists.mp hcf
    have tcf : fragTruthy cf = true := by simp [fragTruthy, hci]
    by_cases he : nf.invoiceNumber = cf.invoiceNumber
    · refine ⟨(some { cf with
          items := some (ci ++ fragItems nf),
          total := if pyTruthyTotal nf.total then nf.total else cf.total },
          all), ?_, ?_, ?_⟩
      · simp [merge_or_add_invoice, tnf, tcf, he, hci]
      · intro cf' h
        cases h
        simp
      · simp [stateItems, fragItems, hci]
    · refine ⟨(some nf, all ++ [cf]), ?_, ?_, ?_⟩
      · simp [merge_or_add_invoice, tnf, tcf, he]
      · intro cf' h
        cases h
        exact hnf
      · simp [stateItems, fragItems, hci]

theorem mergeFold_good (fs : List Frag) (st : Option Frag × List Frag)
    (hfs : ∀ f ∈ fs, f.items.isSome) (hcur : curItemsOk st) :
    ∃ st', mergeFold fs st.1 st.2 = .ok st' ∧ curItemsOk st' ∧
      stateItems st' = stateItems st ++ (fs.map fragItems).flatten := by
  induction fs generalizing st with
  | nil => exact ⟨st, rfl, hcur, by simp⟩
  | cons f fs ih =>
    obtain ⟨st₁, h₁, hcur₁, hit₁⟩ :=
      merge_good f st (hfs f (List.mem_cons_self _ _)) hcur
    obtain ⟨st₂, h₂, hcur₂, hit₂⟩ :=
      ih st₁ (fun g hg => hfs g (List.mem_cons_of_mem _ hg)) hcur₁
    refine ⟨st₂, ?_, hcur₂, ?_⟩
    · obtain ⟨c₁, a₁⟩ := st₁
      simp [mergeFold, h₁, h₂]
    · rw [hit₂, hit₁]
      simp [List.append_assoc]

theorem pageStep_good (st : Option Frag × List Frag) (r : Option PageResult)
    (hr : ∀ f ∈ fragsOfOpt r, f.items.isSome) (hcur : curItemsOk st) :
    curItemsOk (pageStep st r) ∧
      stateItems (pageStep st r) = stateItems st ++ resultItems r := by
  cases r with
  | none => exact ⟨hcur, by simp [pageStep, resultItems, fragsOfOpt]⟩
  | some pr =>
    cases pr with
    | list fs =>
      cases fs with
      | nil =>
        exact ⟨hcur, by simp [pageStep, resultTruthy, resultItems, fragsOfOpt,
          resultFrags]⟩
      | cons f fs =>
        obtain ⟨st', h', hcur', hit'⟩ :=
          mergeFold_good (f :: fs) st (by simpa [fragsOfOpt, resultFrags] using hr)
            hcur
        have : pageStep st (some (.list (f :: fs))) = st' := by
          simp [pageStep, resultTruthy, process_page_result, h']
        rw [this]
        exact ⟨hcur', by simpa [resultItems, fragsOfOpt, resultFrags] using hit'⟩
    | single f =>
      have hf : f.items.isSome := hr f (by simp [fragsOfOpt, resultFrags])
      have tf : fragTruthy f = true := by simp [fragTruthy, hf]
      obtain ⟨st', h', hcur', hit'⟩ := merge_good f st hf hcur
      have : pageStep st (some (.single f)) = st' := by
        simp [pageStep, resultTruthy, tf, process_page_result, h']
      rw [this]
      exact ⟨hcur', by simpa [resultItems, fragsOfOpt, resultFrags] using hit'⟩

theorem foldPages_good (results : List (Option PageResult))
    (st : Option Frag × List Frag)
    (h : ∀ f ∈ (results.map fragsOfOpt).flatten, f.items.isSome)
    (hcur : curItemsOk st) :
    curItemsOk (results.foldl pageStep st) ∧
      stateItems (results.foldl pageStep st) =
        stateItems st ++ (results.map resultItems).flatten := by
  induction results generalizing st with
  | nil => exact ⟨hcur, by simp⟩
  | cons r rs ih =>
    have hr : ∀ f ∈ fragsOfOpt r, f.items.isSome := by
      intro f hf
      exact h f (by simp [hf])
    obtain ⟨hcur₁, hit₁⟩ := pageStep_good st r hr hcur
    obtain ⟨hcur₂, hit₂⟩ := ih (pageStep st r)
      (fun f hf => h f (by simp at hf ⊢; exact Or.inr hf)) hcur₁
    refine ⟨hcur₂, ?_⟩
    simp only [List.foldl_cons] at *
    rw [hit₂, hit₁]
    simp [List.append_assoc]

theorem flush_items (st : Option Frag × List Frag) (hcur : curItemsOk st) :
    ((flushInvoices st).map fragItems).flatten = stateItems st := by
  obtain ⟨cur, all⟩ := st
  cases cur with
  | none => simp [flushInvoices, stateItems]
  | some cf =>
    have hcf : cf.items.isSome := hcur cf rfl
    have tcf : fragTruthy cf = true := by simp [fragTruthy, hcf]
    simp [flushInvoices, tcf, stateItems]

theorem resultItems_flatten (results : List (Option PageResult)) :
    (results.map resultItems).flatten =
      ((results.map fragsOfOpt).flatten.map fragItems).flatten := by
  induction results with
  | nil => rfl
  | cons r rs ih => simp [resultItems, ih]

/-- Claim C9 (amended): provided every fragment parsed by the Extraction
Adapter carries a `'List of Items'` key, the pipeline's page loop plus the
end-of-document flush preserves every parsed item exactly once, in
extraction order (page order, then within-page order). -/
theorem claim_C9_amended (results : List (Option PageResult))
    (h : ∀ f ∈ (results.map fragsOfOpt).flatten, f.items.isSome) :
    ((process_invoice_pages results).map fragItems).flatten =
      ((results.map fragsOfOpt).flatten.map fragItems).flatten := by
  obtain ⟨hcur, hit⟩ := foldPages_good results (none, []) h (by intro cf h'; cases h')
  rw [process_invoice_pages, flush_items _ hcur, hit, ← resultItems_flatten]
  simp [stateItems]

/-- A two-page run exercising both result shapes. -/
def resultsC9W : List (Option PageResult) :=
  [some (.list [⟨some "A", some [1, 2], none, false⟩,
                ⟨some "A", some [2], some 4, false⟩]),
   some (.single ⟨some "B", some [3], none, false⟩)]

theorem claim_C9_witness :
    ((process_invoice_pages resultsC9W).map fragItems).flatten =
      ((resultsC9W.map fragsOfOpt).flatten.map fragItems).flatten :=
  claim_C9_amended resultsC9W (by decide)

/-- A truthy fragment of invoice "A" with no `'List of Items'` key. -/
def fragC9NoItems : Frag := ⟨some "A", none, none, false⟩

/-- A fragment of invoice "A" carrying item 7. -/
def fragC9Item : Frag := ⟨some "A", some [7], none, false⟩

/-- The one-page run in which item 7 is parsed and then lost. -/
def resultsC9Cex : List (Option PageResult) :=
  [some (.list [fragC9NoItems, fragC9Item])]

/-- Claim C9 is false as stated: when a truthy fragment without a
`'List of Items'` key becomes the open invoice, folding the next fragment of
the same invoice number raises `KeyError`
(`current_invoice['List of Items'].extend(...)`), the page-level handler
catches it and moves on, and the page's parsed items are dropped: the final
output holds no items although item 7 was successfully parsed. -/
theorem claim_C9_counterexample :
    ((process_invoice_pages resultsC9Cex).map fragItems).flatten = []
  ∧ ((resultsC9Cex.map fragsOfOpt).flatten.map fragItems).flatten = [7]
  ∧ process_invoice_pages resultsC9Cex = [] := by
  refine ⟨rfl, rfl, rfl⟩

theorem claim_C3_witness :
    packSizeFromTokens ["6", "64", "OZ"] = (6, 64, canonicalUnit "OZ")
  ∧ packSizeFromTokens ["case", "of", "twelve"] = (1, 1, "") :=
  ⟨claim_C3_pack_size.2.2.1 [] [] [] "6" "64" "OZ" 6 64 (by simp) (by simp)
     (by decide) (by decide),
   claim_C3_pack_size.2.2.2.1 ["case", "of", "twelve"] (by decide)⟩

end InvoiceAPI
